import Mathlib

/-!
# WebServerInputInterface: element-name codec, element renderer, request handlers

A shallow embedding of `src/WebServerInputInterface.cpp` and of the request
handlers of `src/WebServerInputInterface.h`.

* An Arduino `String` is a list of characters (`Str`).
* The members of the Arduino core `String` class that the code calls
  (`lastIndexOf`, `substring`, `operator[]`, `isEmpty`, `equals`, `+`) are
  embedded with the signatures of the core: `substring` takes
  `unsigned int` arguments, so an `int` argument is converted modulo `2^32`.
* The configuration store (`getParametersManger()`) is an interface over an
  abstract state; every call to it is recorded in a call log.
-/

namespace WebServerInputInterface

/-! ## Arduino `String` -/

/-- An Arduino `String`: its characters, in order. -/
abbrev Str := List Char

/-- Width of `int` and `unsigned int` on the target. -/
def wordBits : Nat := 32

/-- The largest `int`, `2^31 - 1`: an index the code keeps in an `int` is at
most this. -/
def intMax : Nat := 2 ^ (wordBits - 1) - 1

/-- Conversion of an `int` to `unsigned int` (what happens to an `int` passed
for an `unsigned int` parameter): the value modulo `2^32`. -/
def toUnsigned (i : Int) : Nat := (i % (2 ^ wordBits : Int)).toNat

/-- Position of the last occurrence of `ch` in a character list, if any. -/
def lastIndexOf? (ch : Char) : List Char → Option Nat
  | [] => none
  | c :: cs =>
    match lastIndexOf? ch cs with
    | some i => some (i + 1)
    | none => if c = ch then some 0 else none

/-- `String::lastIndexOf(char)`: the index of the last occurrence of `ch`, or
`-1` when there is none. -/
def lastIndexOf (s : Str) (ch : Char) : Int :=
  match lastIndexOf? ch s with
  | some i => (i : Int)
  | none => -1

/-- `String::substring(unsigned int left, unsigned int right)`: the bounds are
swapped when `left > right`, the result is empty when `left` is not below the
length, `right` is clamped to the length, and the characters `[left, right)`
are returned. -/
def substring (s : Str) (left right : Nat) : Str :=
  let l := if left > right then right else left
  let r := if left > right then left else right
  if l ≥ s.length then []
  else
    let r := if r > s.length then s.length else r
    (s.drop l).take (r - l)

/-- `String::substring(unsigned int beginIndex)`, which is
`substring(beginIndex, len)`. -/
def substringFrom (s : Str) (beginIndex : Nat) : Str :=
  substring s beginIndex s.length

/-- `String::operator[]` on a const `String`: the character at `index`, or the
NUL character when `index` is not below the length. -/
def charAt (s : Str) (index : Nat) : Char := s.getD index (Char.ofNat 0)

/-- `String::isEmpty()`. -/
def isEmpty (s : Str) : Bool := s.length == 0

/-- `String::equals(const String &)`. -/
def equals (s t : Str) : Bool := decide (s = t)

/-! ## Element-name codec (`WebServerInputInterface.cpp`, lines 4-17) -/

/-- The macro `ELEMENT_NAME_SEPARATOR`. -/
def ELEMENT_NAME_SEPARATOR : Char := '_'

/-- `getElementName`: `category + ELEMENT_NAME_SEPARATOR + parameterName`. -/
def getElementName (category parameterName : Str) : Str :=
  category ++ [ELEMENT_NAME_SEPARATOR] ++ parameterName

/-- `getCategoryAndParamName`: split at `lastIndexOf(ELEMENT_NAME_SEPARATOR)`;
both `int` values are passed to `substring` as `unsigned int`. -/
def getCategoryAndParamName (elementName : Str) : Str × Str :=
  let separatorIndex : Int := lastIndexOf elementName ELEMENT_NAME_SEPARATOR
  let category := substring elementName 0 (toUnsigned separatorIndex)
  let parameterName := substringFrom elementName (toUnsigned (separatorIndex + 1))
  (category, parameterName)

/-! ## Parameter metadata (declared in the configuration-handler core) -/

/-- Modelled from the spec: the enum `ParameterType` is declared in the
configuration-handler core; the spec lists its values as INT, FLOAT, BOOL,
TEXT and OPTIONSET. -/
inductive ParameterType where
  | TYPE_INT
  | TYPE_FLOAT
  | TYPE_BOOL
  | TYPE_TEXT
  | TYPE_OPTIONSET
  deriving DecidableEq, Repr

/-- Modelled from the spec: the enum `ParameterAttribute` is declared in the
configuration-handler core; the spec lists its values as NONE and PASSWORD. -/
inductive ParameterAttribute where
  | ATTR_NONE
  | ATTR_PASSWORD
  deriving DecidableEq, Repr

/-- Modelled from the spec: the struct `ParameterInfo` is declared in the
configuration-handler core; the code reads its fields `name`, `type` and
`specialAttribute`. -/
structure ParameterInfo where
  name : Str
  type : ParameterType
  specialAttribute : ParameterAttribute
  deriving DecidableEq, Repr

/-- Modelled from the spec: the struct `ConfigInfo` is declared in the
configuration-handler core; the code reads its fields `title` and
`parameters`. -/
structure ConfigInfo where
  title : Str
  parameters : List ParameterInfo
  deriving DecidableEq, Repr

/-! ## Element renderer (`WebServerInputInterface.cpp`, lines 19-81) -/

/-- `numericHtmlElement`. -/
def numericHtmlElement (parameter : ParameterInfo) (elementName currentValue : Str) : Str :=
  let value := if isEmpty currentValue then "0".toList else currentValue
  if parameter.specialAttribute ≠ ParameterAttribute.ATTR_PASSWORD then
    parameter.name ++ ": <input type='number' id='".toList ++ elementName ++ "' name='".toList
      ++ elementName ++ "' value='".toList ++ value ++ "'>".toList
  else
    parameter.name ++ ": <input type='password' id='".toList ++ elementName ++ "' name='".toList
      ++ elementName ++ "' value='".toList ++ value
      ++ "' pattern='[0-9]+' inputmode='decimal'>".toList

/-- `toggleHtmlElement`. -/
def toggleHtmlElement (parameter : ParameterInfo) (elementName currentValue : Str) : Str :=
  let hiddenElement := "<input type='hidden' name='".toList ++ elementName
    ++ "' value='false'>".toList
  let checked := if charAt currentValue 0 = 't' then "checked".toList else "".toList
  let element := parameter.name ++ ": <input type='checkbox' id='".toList ++ elementName
    ++ "' name='".toList ++ elementName ++ "' value='true' ".toList ++ checked ++ ">".toList
  hiddenElement ++ element

/-- `textualHtmlElement`. -/
def textualHtmlElement (parameter : ParameterInfo) (elementName currentValue : Str) : Str :=
  let type := if parameter.specialAttribute = ParameterAttribute.ATTR_PASSWORD
    then "password".toList else "text".toList
  parameter.name ++ ": <input type='".toList ++ type ++ "' id='".toList ++ elementName
    ++ "' name='".toList ++ elementName ++ "' value='".toList ++ currentValue ++ "'>".toList

/-- `createHtmlTitle`. -/
def createHtmlTitle (title : Str) : Str :=
  "<h2>".toList ++ title ++ "</h2>".toList

/-- `createHtmlElementFor`: the `switch` on `parameter.type`. -/
def createHtmlElementFor (elementName : Str) (parameter : ParameterInfo) (currentValue : Str) :
    Str :=
  match parameter.type with
  | ParameterType.TYPE_INT => numericHtmlElement parameter elementName currentValue
  | ParameterType.TYPE_FLOAT => numericHtmlElement parameter elementName currentValue
  | ParameterType.TYPE_BOOL => toggleHtmlElement parameter elementName currentValue
  | _ => textualHtmlElement parameter elementName currentValue

/-- One iteration of the loop of `createHtmlComboBoxFor` over `options`: the
state is the markup so far and the flag `found`. -/
def comboBoxStep (currentValue : Str) (state : Str × Bool) (option : Str) : Str × Bool :=
  let html := state.1 ++ ("<option value='".toList ++ option ++ "'".toList)
  let found := state.2
  let selected := !found && equals option currentValue
  let html := if selected then html ++ " selected".toList else html
  let found := if selected then true else found
  (html ++ (">".toList ++ option ++ "</option>".toList), found)

/-- `createHtmlComboBoxFor`. -/
def createHtmlComboBoxFor (elementName : Str) (parameter : ParameterInfo) (currentValue : Str)
    (options : List Str) : Str :=
  let html := "Select ".toList ++ parameter.name ++ ": <select id='".toList ++ elementName
    ++ "' name='".toList ++ elementName ++ "'>".toList
  let found := false
  let html := (options.foldl (comboBoxStep currentValue) (html, found)).1
  html ++ ("</select><button type='button' onclick='refreshOptions(\"".toList ++ elementName
    ++ "\")'>Refresh</button>".toList)

/-! ## Collaborators: the configuration store and the web server -/

/-- Modelled from the spec: `ChainedValidationResults` is declared in the
configuration-handler core; it is either a success or a failure carrying the
list of error messages, and `match` calls the first function on a success and
the second on the errors of a failure. -/
inductive ChainedValidationResults where
  | success
  | failure (errors : List Str)
  deriving DecidableEq, Repr

/-- Modelled from the spec: `vectorToString` is defined in the
configuration-handler core (`internal/string-utils.h`); the spec says the
errors are joined by the delimiter. -/
def vectorToString (vec : List Str) (delimiter : Str) : Str :=
  delimiter.intercalate vec

/-- The configuration store behind `getParametersManger()` together with
`validateInput()`, over an abstract store state `σ`. -/
structure ParametersManager (σ : Type) where
  getParameterOptions : Str → Str → Bool → σ → List Str × σ
  setParameterValue : Str → Str → Str → σ → σ
  getOriginalValue : Str → Str → σ → Str
  validateInput : σ → ChainedValidationResults × σ

/-- A call made to the configuration store. -/
inductive StoreCall where
  | getParameterOptions (category parameterName : Str) (forceRefresh : Bool)
  | setParameterValue (category parameterName value : Str)
  | getOriginalValue (category parameterName : Str)
  | validateInput
  deriving DecidableEq, Repr

/-- The request held by the `WebServer` member `server`: the submitted
arguments in order (`args()`, `argName(i)`, `arg(i)`) and the lookup of an
argument by name (`arg(name)`). -/
structure WebServer where
  arguments : List (Str × Str)
  argByName : Str → Str

/-- `WebServer::args()`. -/
def WebServer.args (server : WebServer) : Nat := server.arguments.length

/-- `WebServer::argName(i)`: empty when `i` is out of range. -/
def WebServer.argName (server : WebServer) (i : Nat) : Str :=
  (server.arguments.getD i ([], [])).1

/-- `WebServer::arg(i)`: empty when `i` is out of range. -/
def WebServer.arg (server : WebServer) (i : Nat) : Str :=
  (server.arguments.getD i ([], [])).2

/-- What `server.send(code, content_type, content)` sends. -/
structure Response where
  code : Int
  contentType : Str
  content : Str
  deriving DecidableEq, Repr

/-- The `WebServerInputInterface` object with the store it talks to: the
member `htmlForm`, the store state, and the log of the calls made to the
store, oldest first. -/
structure Interface (σ : Type) where
  htmlForm : Str
  store : σ
  calls : List StoreCall

/-- A call of `getParametersManger().getParameterOptions(...)`. -/
def Interface.getParameterOptions {σ : Type} (pm : ParametersManager σ)
    (category parameterName : Str) (forceRefresh : Bool) (self : Interface σ) :
    List Str × Interface σ :=
  let r := pm.getParameterOptions category parameterName forceRefresh self.store
  (r.1, { self with
    store := r.2
    calls := self.calls ++ [StoreCall.getParameterOptions category parameterName forceRefresh] })

/-- A call of `getParametersManger().setParameterValue(...)`. -/
def Interface.setParameterValue {σ : Type} (pm : ParametersManager σ)
    (category parameterName value : Str) (self : Interface σ) : Interface σ :=
  { self with
    store := pm.setParameterValue category parameterName value self.store
    calls := self.calls ++ [StoreCall.setParameterValue category parameterName value] }

/-- A call of `getParametersManger().getOriginalValue(...)`. -/
def Interface.getOriginalValue {σ : Type} (pm : ParametersManager σ)
    (category parameterName : Str) (self : Interface σ) : Str × Interface σ :=
  (pm.getOriginalValue category parameterName self.store,
    { self with calls := self.calls ++ [StoreCall.getOriginalValue category parameterName] })

/-- A call of `validateInput()`. -/
def Interface.validateInput {σ : Type} (pm : ParametersManager σ) (self : Interface σ) :
    ChainedValidationResults × Interface σ :=
  let r := pm.validateInput self.store
  (r.1, { self with store := r.2, calls := self.calls ++ [StoreCall.validateInput] })

/-! ## Page assembly and request handlers (`WebServerInputInterface.h`) -/

/-- The reset button that `init` appends after each control. -/
def resetButton (elementName : Str) : Str :=
  "<button type='button' onclick='resetValue(\"".toList ++ elementName
    ++ "\")'>Reset</button><br>".toList

/-- Modelled from the spec: the default value of the parameter `forceRefresh`
of `getParameterOptions`, declared in the configuration-handler core. `init`
passes no third argument, and the spec has only the refresh round trip force a
refresh of the option list. -/
def defaultForceRefresh : Bool := false

/-- One iteration of the loop of `init` over `configInfo.parameters`;
`getParameterOptions` is called without its third argument. -/
def initStep {σ : Type} (pm : ParametersManager σ) (title : Str)
    (currentValues : Str → Option Str) (self : Interface σ) (param : ParameterInfo) :
    Interface σ :=
  let elementName := getElementName title param.name
  let value := match currentValues param.name with
    | none => "".toList
    | some v => v
  let self :=
    if param.type = ParameterType.TYPE_OPTIONSET then
      let r := Interface.getParameterOptions pm title param.name defaultForceRefresh self
      { r.2 with htmlForm := r.2.htmlForm ++ createHtmlComboBoxFor elementName param value r.1 }
    else
      { self with htmlForm := self.htmlForm ++ createHtmlElementFor elementName param value }
  { self with htmlForm := self.htmlForm ++ resetButton elementName }

/-- `WebServerInputInterface::init`; `currentValues` is the `std::map`, as the
lookup `find`. -/
def init {σ : Type} (pm : ParametersManager σ) (configInfo : ConfigInfo)
    (currentValues : Str → Option Str) (self : Interface σ) : Interface σ :=
  let self := { self with htmlForm := createHtmlTitle configInfo.title }
  configInfo.parameters.foldl (initStep pm configInfo.title currentValues) self

/-- The JavaScript function `resetValue` of `showWebPage`. -/
def resetFunction : Str :=
  "function resetValue(elementName)\x7bconst element=document.getElementById(elementName),elementTag=element.tagName.toLowerCase();fetch('/resetValue?param='+elementName).then(response=>response.json()).then(data=>\x7bif(elementTag==='input')\x7belement.type==='checkbox'?(element.checked=(data.value==='true')):(element.value=data.value);\x7delse if(elementTag==='select')\x7blet selectedIndex=-1;for(let i=0;i<element.length;i++)if(element[i].value===data.value)\x7bselectedIndex=i;break;\x7delement.selectedIndex=selectedIndex;\x7d\x7d);\x7d".toList

/-- The JavaScript function `refreshOptions` of `showWebPage`. -/
def refreshFunction : Str :=
  "function refreshOptions(elementName)\x7bfetch('/refresh?param='+elementName).then(response=>response.json()).then(data=>\x7bconst select=document.getElementById(elementName);select.innerHTML='';data.options.forEach(option=>\x7bconst opt=document.createElement('option');opt.value=option;opt.text=option;if(option===data.current)opt.selected=true;select.add(opt);\x7d);\x7d);\x7d".toList

/-- `WebServerInputInterface::showWebPage`. -/
def showWebPage {σ : Type} (self : Interface σ) : Response × Interface σ :=
  let html :=
    "<!DOCTYPE html><html><body><h1>ESP32 Configuration</h1><form action='/save' method='POST'>".toList
  let html := html ++ self.htmlForm
  let html := html
    ++ ("<input type='submit' value='Save'></form><script type=\"text/javascript\">".toList
      ++ resetFunction ++ "\n".toList ++ refreshFunction ++ "</script></body></html>".toList)
  ({ code := 200, contentType := "text/html".toList, content := html }, self)

/-- One iteration of the loop of `handleSaveRequest` over the argument
indices. -/
def saveStep {σ : Type} (pm : ParametersManager σ) (server : WebServer) (self : Interface σ)
    (i : Nat) : Interface σ :=
  let argName := server.argName i
  let argValue := server.arg i
  let cp := getCategoryAndParamName argName
  Interface.setParameterValue pm cp.1 cp.2 argValue self

/-- `WebServerInputInterface::handleSaveRequest`. -/
def handleSaveRequest {σ : Type} (pm : ParametersManager σ) (server : WebServer)
    (self : Interface σ) : Response × Interface σ :=
  let argsCount := server.args
  let self := (List.range argsCount).foldl (saveStep pm server) self
  let r := Interface.validateInput pm self
  let result := r.1
  let self := r.2
  let cc : Int × Str :=
    match result with
    | ChainedValidationResults.success =>
      (200, "Configurations were saved successfully.".toList)
    | ChainedValidationResults.failure errors =>
      (400, "Validation errors:\n".toList ++ vectorToString errors "\n".toList)
  ({ code := cc.1, contentType := "text/plain".toList, content := cc.2 }, self)

/-- `WebServerInputInterface::handleResetRequest`. -/
def handleResetRequest {σ : Type} (pm : ParametersManager σ) (server : WebServer)
    (self : Interface σ) : Response × Interface σ :=
  let elementName := server.argByName "param".toList
  let cp := getCategoryAndParamName elementName
  let r := Interface.getOriginalValue pm cp.1 cp.2 self
  let originalValue := r.1
  let self := r.2
  ({ code := 200, contentType := "application/json".toList,
     content := "\x7b\"value\":\"".toList ++ originalValue ++ "\"\x7d".toList }, self)

/-- One iteration of the loop of `handleRefreshRequest` over the option
indices: the quoted option, then a comma unless `i` is the last index. The
loop runs only for `i < options.size()`, so `options.size() - 1` does not
wrap. -/
def refreshStep (options : List Str) (json : Str) (i : Nat) : Str :=
  let json := json ++ ("\"".toList ++ options.getD i [] ++ "\"".toList)
  if i < options.length - 1 then json ++ ",".toList else json

/-- `WebServerInputInterface::handleRefreshRequest`; `originalValue` is the value
that `getOriginalValue` returns, read before the options are fetched. -/
def handleRefreshRequest {σ : Type} (pm : ParametersManager σ) (server : WebServer)
    (self : Interface σ) : Response × Interface σ :=
  let elementName := server.argByName "param".toList
  let cp := getCategoryAndParamName elementName
  let r := Interface.getOriginalValue pm cp.1 cp.2 self
  let originalValue := r.1
  let self := r.2
  let r := Interface.getParameterOptions pm cp.1 cp.2 true self
  let options := r.1
  let self := r.2
  let json := "\x7b\"current\":\"".toList ++ originalValue ++ "\",\"options\":[".toList
  let json := (List.range options.length).foldl (refreshStep options) json
  let json := json ++ "]\x7d".toList
  ({ code := 200, contentType := "application/json".toList, content := json }, self)

/-- The four routes that `startImpl` registers with `server.on`: `/` (GET),
`/save` (POST), `/resetValue` and `/refresh`. -/
inductive Route where
  | root
  | save
  | resetValue
  | refresh
  deriving DecidableEq, Repr

/-- What `server.handleClient()` runs for a request on a registered route: the
handler that `startImpl` bound to it. -/
def handleClient {σ : Type} (pm : ParametersManager σ) (route : Route) (server : WebServer)
    (self : Interface σ) : Response × Interface σ :=
  match route with
  | Route.root => showWebPage self
  | Route.save => handleSaveRequest pm server self
  | Route.resetValue => handleResetRequest pm server self
  | Route.refresh => handleRefreshRequest pm server self

/-- The interface after a sequence of requests, each handled to completion
before the next. -/
def handleClients {σ : Type} (pm : ParametersManager σ) :
    List (Route × WebServer) → Interface σ → Interface σ
  | [], self => self
  | request :: rest, self =>
    handleClients pm rest (handleClient pm request.1 request.2 self).2

/-! ## Reference descriptions used by the statements -/

/-- The store call that the save handler owes to one submitted pair
`(elementName, value)`: the setter, on the decoded element name. -/
def setterCall (pair : Str × Str) : StoreCall :=
  StoreCall.setParameterValue (getCategoryAndParamName pair.1).1
    (getCategoryAndParamName pair.1).2 pair.2

/-- The store state after the setter has been applied to every submitted pair,
in submission order. -/
def applySubmitted {σ : Type} (pm : ParametersManager σ) (pairs : List (Str × Str))
    (store : σ) : σ :=
  pairs.foldl
    (fun s pair => pm.setParameterValue (getCategoryAndParamName pair.1).1
      (getCategoryAndParamName pair.1).2 pair.2 s)
    store

/-- A store without state whose validation always reports the given result;
its getters return nothing. -/
def constantStore (result : ChainedValidationResults) : ParametersManager Unit where
  getParameterOptions := fun _ _ _ s => ([], s)
  setParameterValue := fun _ _ _ s => s
  getOriginalValue := fun _ _ _ => []
  validateInput := fun s => (result, s)

/-- A request that submits the given pairs and has no named argument. -/
def submission (pairs : List (Str × Str)) : WebServer where
  arguments := pairs
  argByName := fun _ => []

/-- An interface before any request: empty form, no call made yet. -/
def freshInterface : Interface Unit where
  htmlForm := []
  store := ()
  calls := []

/-- A FLOAT parameter `x` with the PASSWORD attribute. -/
def floatPasswordParameter : ParameterInfo where
  name := "x".toList
  type := ParameterType.TYPE_FLOAT
  specialAttribute := ParameterAttribute.ATTR_PASSWORD

/-- The markup of one option entry of a combo box, marked selected or not. -/
def optionEntry (option : Str) (selected : Bool) : Str :=
  "<option value='".toList ++ option ++ "'".toList
    ++ (if selected then " selected".toList else []) ++ ">".toList ++ option
    ++ "</option>".toList

/-- Index `i` is the smallest index at which `options` holds `value`. -/
def isFirstMatch (options : List Str) (value : Str) (i : Nat) : Prop :=
  options.get? i = some value ∧ ∀ j, j < i → options.get? j ≠ some value

instance (options : List Str) (value : Str) (i : Nat) :
    Decidable (isFirstMatch options value i) := by
  unfold isFirstMatch
  infer_instance

/-- The option entries as the loop of `createHtmlComboBoxFor` emits them, by
the value of `found` on entry. -/
def loopEntries (currentValue : Str) : Bool → List Str → Str
  | _, [] => []
  | found, option :: rest =>
    optionEntry option (!found && equals option currentValue)
      ++ loopEntries currentValue (found || equals option currentValue) rest

/-- An option between double quotes, as it stands in the refresh response. -/
def quoted (option : Str) : Str :=
  "\"".toList ++ option ++ "\"".toList

/-- A store without state with a fixed original value and a fixed option
list. -/
def fixedStore (original : Str) (options : List Str) : ParametersManager Unit where
  getParameterOptions := fun _ _ _ s => (options, s)
  setParameterValue := fun _ _ _ s => s
  getOriginalValue := fun _ _ _ => original
  validateInput := fun s => (ChainedValidationResults.success, s)

/-- A request whose argument `param` is the given element name. -/
def paramRequest (elementName : Str) : WebServer where
  arguments := [("param".toList, elementName)]
  argByName := fun name => if name = "param".toList then elementName else []

/-- The `type` attribute that the spec gives the input control of an INT, FLOAT
or TEXT parameter: `password` with the PASSWORD attribute, else `text` for TEXT
and `number` for INT and FLOAT. -/
def inputTypeOf (type : ParameterType) (special : ParameterAttribute) : Str :=
  if special = ParameterAttribute.ATTR_PASSWORD then "password".toList
  else if type = ParameterType.TYPE_TEXT then "text".toList
  else "number".toList

/-- A store without state whose validation always succeeds and whose getters
return nothing. -/
def acceptingStore : ParametersManager Unit where
  getParameterOptions := fun _ _ _ s => ([], s)
  setParameterValue := fun _ _ _ s => s
  getOriginalValue := fun _ _ _ => []
  validateInput := fun s => (ChainedValidationResults.success, s)

/-- The current value that the page assembly shows for a parameter: the entry
of `CurrentValues` under its name, or the empty string when there is none. -/
def valueFor (currentValues : Str → Option Str) (name : Str) : Str :=
  match currentValues name with
  | none => []
  | some v => v

/-- The control of one parameter as the page assembly describes it: the combo
box over the given option list when the type is OPTIONSET, the rendered element
otherwise, on the element name `getElementName title name`. -/
def controlFor (title : Str) (currentValues : Str → Option Str) (param : ParameterInfo)
    (options : List Str) : Str :=
  if param.type = ParameterType.TYPE_OPTIONSET then
    createHtmlComboBoxFor (getElementName title param.name) param
      (valueFor currentValues param.name) options
  else
    createHtmlElementFor (getElementName title param.name) param
      (valueFor currentValues param.name)

/-- The markup of one parameter: its control, then its reset button. -/
def parameterMarkup (title : Str) (currentValues : Str → Option Str) (param : ParameterInfo)
    (options : List Str) : Str :=
  controlFor title currentValues param options ++ resetButton (getElementName title param.name)

/-- The page body as the page assembly describes it: the markup of every
parameter in order, the option list of an OPTIONSET parameter being the one the
store returns, without a forced refresh, in the state the earlier fetches left
it in. -/
def pageBody {σ : Type} (pm : ParametersManager σ) (title : Str)
    (currentValues : Str → Option Str) : σ → List ParameterInfo → Str
  | _, [] => []
  | store, param :: rest =>
    if param.type = ParameterType.TYPE_OPTIONSET then
      parameterMarkup title currentValues param
          (pm.getParameterOptions title param.name false store).1
        ++ pageBody pm title currentValues
          (pm.getParameterOptions title param.name false store).2 rest
    else
      parameterMarkup title currentValues param [] ++ pageBody pm title currentValues store rest

/-- What stands before the display name in the markup of a parameter: the
hidden input for BOOL, the word `Select` for OPTIONSET, nothing otherwise. -/
def labelLead (elementName : Str) (type : ParameterType) : Str :=
  match type with
  | ParameterType.TYPE_BOOL =>
    "<input type='hidden' name='".toList ++ elementName ++ "' value='false'>".toList
  | ParameterType.TYPE_OPTIONSET => "Select ".toList
  | _ => []

/-- A BOOL parameter `flag` without special attribute. -/
def flagParameter : ParameterInfo where
  name := "flag".toList
  type := ParameterType.TYPE_BOOL
  specialAttribute := ParameterAttribute.ATTR_NONE

/-- An OPTIONSET parameter `mode` without special attribute. -/
def modeParameter : ParameterInfo where
  name := "mode".toList
  type := ParameterType.TYPE_OPTIONSET
  specialAttribute := ParameterAttribute.ATTR_NONE

/-- A configuration `cat` with the INT parameter `x` and the OPTIONSET parameter
`mode`. -/
def sampleConfig : ConfigInfo where
  title := "cat".toList
  parameters :=
    [ParameterInfo.mk "x".toList ParameterType.TYPE_INT ParameterAttribute.ATTR_NONE,
     modeParameter]

/-- Current values in which only `x` has a value, `5`. -/
def sampleValues (name : Str) : Option Str :=
  if name = "x".toList then some "5".toList else none

/-! ## Lemmas on the `String` operations -/

theorem toUnsigned_ofNat (n : Nat) (h : n < 2 ^ wordBits) : toUnsigned (n : Int) = n := by
  unfold toUnsigned
  have h2 : ((n : Int) % (2 ^ wordBits : Int)) = (n : Int) := by
    apply Int.emod_eq_of_lt (by omega)
    exact_mod_cast h
  rw [h2]; simp

theorem toUnsigned_neg_one : toUnsigned (-1) = 2 ^ wordBits - 1 := by
  decide

theorem lastIndexOf?_eq_none_iff (ch : Char) (s : List Char) :
    lastIndexOf? ch s = none ↔ ch ∉ s := by
  induction s with
  | nil => simp [lastIndexOf?]
  | cons c cs ih =>
    rw [lastIndexOf?]
    cases h : lastIndexOf? ch cs with
    | none =>
      have hc : ch ∉ cs := ih.mp h
      by_cases hcc : c = ch
      · simp [hcc]
      · have : ¬ ch = c := fun e => hcc e.symm
        simp [hcc, hc, this]
    | some i =>
      have hc : ¬ ch ∉ cs := fun hn => by
        have := ih.mpr hn
        rw [h] at this
        cases this
      have hc2 : ch ∈ cs := Classical.not_not.mp hc
      simp [hc2]

theorem lastIndexOf?_append_cons (ch : Char) (C P : List Char) (hP : ch ∉ P) :
    lastIndexOf? ch (C ++ ch :: P) = some C.length := by
  have hnone : lastIndexOf? ch P = none := (lastIndexOf?_eq_none_iff ch P).mpr hP
  induction C with
  | nil => simp [lastIndexOf?, hnone]
  | cons c cs ih => simp [lastIndexOf?, ih]

theorem lastIndexOf?_some_split (ch : Char) (s : List Char) (i : Nat)
    (h : lastIndexOf? ch s = some i) :
    i < s.length ∧ s = s.take i ++ ch :: s.drop (i + 1) ∧ ch ∉ s.drop (i + 1) := by
  induction s generalizing i with
  | nil => simp [lastIndexOf?] at h
  | cons c cs ih =>
    rw [lastIndexOf?] at h
    cases hcs : lastIndexOf? ch cs with
    | none =>
      rw [hcs] at h
      by_cases hcc : c = ch
      · simp [hcc] at h
        subst h
        subst hcc
        have := (lastIndexOf?_eq_none_iff c cs).mp hcs
        simp [this]
      · simp [hcc] at h
    | some j =>
      rw [hcs] at h
      simp at h
      subst h
      obtain ⟨h1, h2, h3⟩ := ih j hcs
      refine ⟨by simp [h1], ?_, by simpa using h3⟩
      simp only [List.take_succ_cons, List.drop_succ_cons, List.cons_append]
      rw [← h2]

theorem substring_zero (s : Str) (r : Nat) (hs : s ≠ []) :
    substring s 0 r = s.take r := by
  have hlen : 0 < s.length := List.length_pos.mpr hs
  unfold substring
  simp only [Nat.not_lt_zero, if_false, ge_iff_le, Nat.le_zero_eq, gt_iff_lt]
  rw [if_neg (by omega)]
  simp only [List.drop_zero, Nat.sub_zero]
  split
  · rename_i h
    rw [List.take_of_length_le (le_refl _), List.take_of_length_le (by omega)]
  · rfl

theorem substringFrom_eq_drop (s : Str) (b : Nat) (hb : b ≤ s.length) :
    substringFrom s b = s.drop b := by
  unfold substringFrom substring
  have h1 : ¬ b > s.length := by omega
  simp only [h1, if_false]
  by_cases h2 : b ≥ s.length
  · rw [if_pos h2, List.drop_of_length_le h2]
  · rw [if_neg h2]
    simp only [gt_iff_lt, lt_self_iff_false, if_false]
    apply List.take_of_length_le
    simp

/-- With a separator at index `i` (the last one), the decoder returns the
characters before `i` and the characters after `i`. -/
theorem getCategoryAndParamName_of_lastIndexOf? (E : Str) (i : Nat)
    (h : lastIndexOf? ELEMENT_NAME_SEPARATOR E = some i) (hlen : E.length ≤ intMax) :
    getCategoryAndParamName E = (E.take i, E.drop (i + 1)) := by
  obtain ⟨hi, -, -⟩ := lastIndexOf?_some_split _ E i h
  have hne : E ≠ [] := by
    intro e; rw [e] at hi; simp at hi
  have hmax : intMax < 2 ^ wordBits := by decide
  unfold getCategoryAndParamName lastIndexOf
  simp only [h]
  have e1 : toUnsigned ((i : Int)) = i := toUnsigned_ofNat i (by omega)
  have e2 : toUnsigned ((i : Int) + 1) = i + 1 := by
    have := toUnsigned_ofNat (i + 1) (by omega)
    simpa using this
  rw [e1, e2, substring_zero E i hne, substringFrom_eq_drop E (i + 1) (by omega)]

/-- Without a separator, the decoder returns the whole element name twice. -/
theorem getCategoryAndParamName_of_none (E : Str)
    (h : lastIndexOf? ELEMENT_NAME_SEPARATOR E = none) (hlen : E.length ≤ intMax) :
    getCategoryAndParamName E = (E, E) := by
  have hmax : intMax < 2 ^ wordBits - 1 := by decide
  unfold getCategoryAndParamName lastIndexOf
  simp only [h]
  have e2 : toUnsigned (-1 + 1) = 0 := by decide
  rw [toUnsigned_neg_one, e2, substringFrom_eq_drop E 0 (by omega)]
  by_cases hne : E = []
  · subst hne; rfl
  · rw [substring_zero E _ hne, List.take_of_length_le (by omega)]
    rfl

/-! ## The element-name codec -/

/-- C1: round trip. For every category `C` (it may contain the separator) and
every parameter name `P` without `'_'`, decoding the encoded element name gives
back `(C, P)`; the element name is one whose indices fit an `int`. -/
theorem getCategoryAndParamName_getElementName (C P : Str) (hP : '_' ∉ P)
    (hlen : (getElementName C P).length ≤ intMax) :
    getCategoryAndParamName (getElementName C P) = (C, P) := by
  have hlast : lastIndexOf? ELEMENT_NAME_SEPARATOR (getElementName C P) = some C.length := by
    unfold getElementName
    rw [List.append_assoc]
    exact lastIndexOf?_append_cons ELEMENT_NAME_SEPARATOR C P hP
  rw [getCategoryAndParamName_of_lastIndexOf? _ _ hlast hlen]
  simp [getElementName]

/-- C1 at the category `my_cat` (which contains the separator) and the
parameter name `x`. -/
theorem getCategoryAndParamName_getElementName_witness :
    '_' ∉ "x".toList ∧ (getElementName "my_cat".toList "x".toList).length ≤ intMax ∧
      getCategoryAndParamName (getElementName "my_cat".toList "x".toList)
        = ("my_cat".toList, "x".toList) :=
  ⟨by decide, by decide,
    getCategoryAndParamName_getElementName "my_cat".toList "x".toList (by decide) (by decide)⟩

/-- C2: for every element name `E` with at least one `'_'`, the decoder splits
at the last one: the category, `"_"` and the parameter name concatenate to `E`,
the parameter name has no `'_'`, and encoding the pair gives `E` back. -/
theorem getCategoryAndParamName_split_last (E : Str) (hsep : '_' ∈ E)
    (hlen : E.length ≤ intMax) :
    (getCategoryAndParamName E).1 ++ "_".toList ++ (getCategoryAndParamName E).2 = E ∧
      '_' ∉ (getCategoryAndParamName E).2 ∧
      getElementName (getCategoryAndParamName E).1 (getCategoryAndParamName E).2 = E := by
  cases h : lastIndexOf? ELEMENT_NAME_SEPARATOR E with
  | none => exact absurd hsep ((lastIndexOf?_eq_none_iff _ E).mp h)
  | some i =>
    obtain ⟨-, hsplit, hfree⟩ := lastIndexOf?_some_split _ E i h
    rw [getCategoryAndParamName_of_lastIndexOf? E i h hlen]
    have hcat : List.take i E ++ "_".toList ++ List.drop (i + 1) E = E := by
      rw [List.append_assoc]
      exact hsplit.symm
    exact ⟨hcat, hfree, hcat⟩

/-- C2 at the element name `a_b_c`. -/
theorem getCategoryAndParamName_split_last_witness :
    (getCategoryAndParamName "a_b_c".toList).1 ++ "_".toList
        ++ (getCategoryAndParamName "a_b_c".toList).2 = "a_b_c".toList ∧
      '_' ∉ (getCategoryAndParamName "a_b_c".toList).2 ∧
      getElementName (getCategoryAndParamName "a_b_c".toList).1
        (getCategoryAndParamName "a_b_c".toList).2 = "a_b_c".toList :=
  getCategoryAndParamName_split_last "a_b_c".toList (by decide) (by decide)

/-- C3, refuted as stated: the element name `abc` has no separator and its
decoded category is `abc`, not the empty string. -/
theorem getCategoryAndParamName_no_separator_category_nonempty :
    '_' ∉ "abc".toList ∧ lastIndexOf "abc".toList '_' = -1 ∧
      (getCategoryAndParamName "abc".toList).1 = "abc".toList ∧
      (getCategoryAndParamName "abc".toList).1 ≠ [] := by
  decide

/-- C3, amended: for every element name `E` without `'_'`, `lastIndexOf` yields
`-1`, the category `substring(0, -1)` is the whole of `E` (the `-1` is taken as
the `unsigned int` `4294967295` and clamped to the length) and so is the
parameter name; the category is empty only when `E` is. -/
theorem getCategoryAndParamName_no_separator (E : Str) (hsep : '_' ∉ E)
    (hlen : E.length ≤ intMax) :
    lastIndexOf E '_' = -1 ∧ toUnsigned (-1) = 4294967295 ∧
      getCategoryAndParamName E = (E, E) ∧
      ((getCategoryAndParamName E).1 = [] ↔ E = []) := by
  have h : lastIndexOf? ELEMENT_NAME_SEPARATOR E = none :=
    (lastIndexOf?_eq_none_iff _ E).mpr hsep
  have hdec := getCategoryAndParamName_of_none E h hlen
  refine ⟨?_, by decide, hdec, by rw [hdec]⟩
  unfold lastIndexOf
  have h2 : lastIndexOf? '_' E = none := h
  rw [h2]

/-- C3 (amended) at the element name `abc`. -/
theorem getCategoryAndParamName_no_separator_witness :
    lastIndexOf "abc".toList '_' = -1 ∧ toUnsigned (-1) = 4294967295 ∧
      getCategoryAndParamName "abc".toList = ("abc".toList, "abc".toList) ∧
      ((getCategoryAndParamName "abc".toList).1 = [] ↔ "abc".toList = []) :=
  getCategoryAndParamName_no_separator "abc".toList (by decide) (by decide)

/-! ## The save handler -/

theorem foldl_range_getD {α β : Type} (l : List α) (d : α) (g : β → α → β) (b : β) (n : Nat)
    (hn : n ≤ l.length) :
    (List.range n).foldl (fun acc i => g acc (l.getD i d)) b = (l.take n).foldl g b := by
  induction n with
  | zero => simp
  | succ n ih =>
    have hlt : n < l.length := by omega
    rw [List.range_succ, List.foldl_append, ih (by omega), List.take_succ,
      List.getElem?_eq_getElem hlt, List.foldl_append]
    simp only [List.foldl_cons, List.foldl_nil, Option.toList, List.getD_eq_getElem l d hlt]

/-- The save loop over the argument indices is the fold of the setter over the
submitted pairs. -/
theorem saveLoop_eq_foldl {σ : Type} (pm : ParametersManager σ) (server : WebServer)
    (self : Interface σ) :
    (List.range server.args).foldl (saveStep pm server) self
      = server.arguments.foldl
          (fun s pair => Interface.setParameterValue pm (getCategoryAndParamName pair.1).1
            (getCategoryAndParamName pair.1).2 pair.2 s) self := by
  have h := foldl_range_getD server.arguments (([], []) : Str × Str)
    (fun (s : Interface σ) pair => Interface.setParameterValue pm
      (getCategoryAndParamName pair.1).1 (getCategoryAndParamName pair.1).2 pair.2 s)
    self server.arguments.length (le_refl _)
  rw [List.take_length] at h
  exact h

theorem foldl_setParameterValue {σ : Type} (pm : ParametersManager σ) (pairs : List (Str × Str))
    (self : Interface σ) :
    pairs.foldl
        (fun s pair => Interface.setParameterValue pm (getCategoryAndParamName pair.1).1
          (getCategoryAndParamName pair.1).2 pair.2 s) self
      = { htmlForm := self.htmlForm
          store := applySubmitted pm pairs self.store
          calls := self.calls ++ pairs.map setterCall } := by
  induction pairs generalizing self with
  | nil => simp [applySubmitted]
  | cons a rest ih =>
    rw [List.foldl_cons, ih]
    simp [applySubmitted, Interface.setParameterValue, setterCall]

/-- The state in which the save handler calls validation. -/
theorem saveLoop_state {σ : Type} (pm : ParametersManager σ) (server : WebServer)
    (self : Interface σ) :
    (List.range server.args).foldl (saveStep pm server) self
      = { htmlForm := self.htmlForm
          store := applySubmitted pm server.arguments self.store
          calls := self.calls ++ server.arguments.map setterCall } := by
  rw [saveLoop_eq_foldl, foldl_setParameterValue]

/-- The response of the save handler, by the result of the validation that
runs on the store after all setters. -/
theorem handleSaveRequest_response {σ : Type} (pm : ParametersManager σ) (server : WebServer)
    (self : Interface σ) :
    (handleSaveRequest pm server self).1
      = match (pm.validateInput (applySubmitted pm server.arguments self.store)).1 with
        | ChainedValidationResults.success =>
          { code := 200, contentType := "text/plain".toList,
            content := "Configurations were saved successfully.".toList }
        | ChainedValidationResults.failure errors =>
          { code := 400, contentType := "text/plain".toList,
            content := "Validation errors:\n".toList ++ vectorToString errors "\n".toList } := by
  unfold handleSaveRequest
  simp only [saveLoop_state, Interface.validateInput]
  cases (pm.validateInput (applySubmitted pm server.arguments self.store)).1 <;> rfl

/-- C4: the save handler applies the whole batch before validating. Its calls
to the store are one setter call per submitted pair, in submission order, on
the decoded element name and the submitted value, followed by exactly one
validation call (alone when nothing is submitted); validation runs on the store
to which every setter has been applied; and the pairs `cat_x = 5`,
`cat_y = true` give `setParameterValue("cat","x","5")`,
`setParameterValue("cat","y","true")`, `validateInput`. -/
theorem handleSaveRequest_calls {σ : Type} (pm : ParametersManager σ) (server : WebServer)
    (self : Interface σ) :
    (handleSaveRequest pm server self).2.calls
        = self.calls ++ server.arguments.map setterCall ++ [StoreCall.validateInput] ∧
      (handleSaveRequest pm server self).2.store
        = (pm.validateInput (applySubmitted pm server.arguments self.store)).2 ∧
      (server.arguments = [] →
        (handleSaveRequest pm server self).2.calls = self.calls ++ [StoreCall.validateInput]) ∧
      (server.arguments = [("cat_x".toList, "5".toList), ("cat_y".toList, "true".toList)] →
        (handleSaveRequest pm server self).2.calls
          = self.calls ++
            [StoreCall.setParameterValue "cat".toList "x".toList "5".toList,
             StoreCall.setParameterValue "cat".toList "y".toList "true".toList,
             StoreCall.validateInput]) := by
  have hcalls : (handleSaveRequest pm server self).2.calls
      = self.calls ++ server.arguments.map setterCall ++ [StoreCall.validateInput] := by
    unfold handleSaveRequest
    simp only [saveLoop_state, Interface.validateInput]
  refine ⟨hcalls, ?_, ?_, ?_⟩
  · unfold handleSaveRequest
    simp only [saveLoop_state, Interface.validateInput]
  · intro h
    rw [hcalls, h]
    simp
  · intro h
    rw [hcalls, h]
    have e : List.map setterCall
        [("cat_x".toList, "5".toList), ("cat_y".toList, "true".toList)]
        = [StoreCall.setParameterValue "cat".toList "x".toList "5".toList,
           StoreCall.setParameterValue "cat".toList "y".toList "true".toList] := by
      decide
    rw [e]
    simp

/-- C5, refuted as stated: when validation reports the single error
`x out of range`, the status is 400 but the body is
`Validation errors:` and a newline followed by that line, which is not the
error messages joined by newlines. -/
theorem handleSaveRequest_failure_body_has_header :
    (handleSaveRequest (constantStore (ChainedValidationResults.failure ["x out of range".toList]))
        (submission [("cat_x".toList, "5".toList)]) freshInterface).1.code = 400 ∧
      (handleSaveRequest (constantStore (ChainedValidationResults.failure ["x out of range".toList]))
        (submission [("cat_x".toList, "5".toList)]) freshInterface).1.content
        = "Validation errors:\nx out of range".toList ∧
      (handleSaveRequest (constantStore (ChainedValidationResults.failure ["x out of range".toList]))
        (submission [("cat_x".toList, "5".toList)]) freshInterface).1.content
        ≠ vectorToString ["x out of range".toList] "\n".toList := by
  decide

/-- C5, amended: when the validation that follows the setters reports
`Failure(errors)`, the save handler responds with status 400, content type
`text/plain`, and a body that is the line `Validation errors:`, a newline, and
then the error messages joined by newlines. -/
theorem handleSaveRequest_failure {σ : Type} (pm : ParametersManager σ) (server : WebServer)
    (self : Interface σ) (errors : List Str)
    (h : (pm.validateInput (applySubmitted pm server.arguments self.store)).1
      = ChainedValidationResults.failure errors) :
    (handleSaveRequest pm server self).1
        = { code := 400, contentType := "text/plain".toList,
            content := "Validation errors:\n".toList ++ vectorToString errors "\n".toList } ∧
      vectorToString errors "\n".toList = List.intercalate ['\n'] errors := by
  refine ⟨?_, rfl⟩
  rw [handleSaveRequest_response, h]

/-- C5 (amended) at a store whose validation reports two errors. -/
theorem handleSaveRequest_failure_witness :
    (handleSaveRequest
        (constantStore (ChainedValidationResults.failure ["x out of range".toList, "y".toList]))
        (submission [("cat_x".toList, "5".toList)]) freshInterface).1
        = { code := 400, contentType := "text/plain".toList,
            content := "Validation errors:\n".toList
              ++ vectorToString ["x out of range".toList, "y".toList] "\n".toList } ∧
      vectorToString ["x out of range".toList, "y".toList] "\n".toList
        = List.intercalate ['\n'] ["x out of range".toList, "y".toList] :=
  handleSaveRequest_failure
    (constantStore (ChainedValidationResults.failure ["x out of range".toList, "y".toList]))
    (submission [("cat_x".toList, "5".toList)]) freshInterface
    ["x out of range".toList, "y".toList] rfl

/-- C6: for every save submission the status is 200 exactly when the validation
that follows the setters returns `Success`; then the body is the fixed text
`Configurations were saved successfully.`; otherwise the status is 400. -/
theorem handleSaveRequest_status {σ : Type} (pm : ParametersManager σ) (server : WebServer)
    (self : Interface σ) :
    ((handleSaveRequest pm server self).1.code = 200 ↔
        (pm.validateInput (applySubmitted pm server.arguments self.store)).1
          = ChainedValidationResults.success) ∧
      ((pm.validateInput (applySubmitted pm server.arguments self.store)).1
          = ChainedValidationResults.success →
        (handleSaveRequest pm server self).1.content
          = "Configurations were saved successfully.".toList) ∧
      ((pm.validateInput (applySubmitted pm server.arguments self.store)).1
          ≠ ChainedValidationResults.success →
        (handleSaveRequest pm server self).1.code = 400) := by
  rw [handleSaveRequest_response]
  cases (pm.validateInput (applySubmitted pm server.arguments self.store)).1 <;> simp

/-! ## The element renderer -/

/-- C7: for every BOOL parameter, element name `E` and current value `V`,
`createHtmlElementFor` emits a hidden input named `E` with value `false`
followed by the label and a checkbox with id and name `E` and value `true`; the
checkbox carries `checked` exactly when `V` is non-empty and its first
character is `'t'`; an empty `V` renders unchecked, and so does a `V` that
starts with an upper-case `T`. -/
theorem createHtmlElementFor_bool (name E V : Str) (special : ParameterAttribute) :
    createHtmlElementFor E (ParameterInfo.mk name ParameterType.TYPE_BOOL special) V
        = "<input type='hidden' name='".toList ++ E ++ "' value='false'>".toList
          ++ (name ++ ": <input type='checkbox' id='".toList ++ E ++ "' name='".toList ++ E
            ++ "' value='true' ".toList
            ++ (if V ≠ [] ∧ V.head? = some 't' then "checked".toList else [])
            ++ ">".toList) ∧
      createHtmlElementFor E (ParameterInfo.mk name ParameterType.TYPE_BOOL special) []
        = "<input type='hidden' name='".toList ++ E ++ "' value='false'>".toList
          ++ (name ++ ": <input type='checkbox' id='".toList ++ E ++ "' name='".toList ++ E
            ++ "' value='true' >".toList) ∧
      createHtmlElementFor E (ParameterInfo.mk name ParameterType.TYPE_BOOL special)
          ("True".toList ++ V)
        = createHtmlElementFor E (ParameterInfo.mk name ParameterType.TYPE_BOOL special) [] := by
  have hchar : ∀ W : Str, (charAt W 0 = 't') ↔ (W ≠ [] ∧ W.head? = some 't') := by
    intro W
    cases W with
    | nil => simp [charAt]
    | cons c cs => simp [charAt]
  refine ⟨?_, ?_, ?_⟩
  · simp only [createHtmlElementFor, toggleHtmlElement]
    by_cases h : charAt V 0 = 't'
    · rw [if_pos h, if_pos ((hchar V).mp h)]
    · rw [if_neg h, if_neg (fun h2 => h ((hchar V).mpr h2))]
      rfl
  · simp [createHtmlElementFor, toggleHtmlElement, charAt]
  · simp [createHtmlElementFor, toggleHtmlElement, charAt]

/-- C8: for every INT or FLOAT parameter, with either special attribute, and
every element name, the empty current value renders as the current value `0`
does; the value attribute is `0` for the empty current value and the current
value itself otherwise. -/
theorem createHtmlElementFor_numeric_default (E V : Str) (p : ParameterInfo)
    (hp : p.type = ParameterType.TYPE_INT ∨ p.type = ParameterType.TYPE_FLOAT) :
    createHtmlElementFor E p [] = createHtmlElementFor E p "0".toList ∧
      createHtmlElementFor E p V
        = p.name
          ++ (if p.specialAttribute = ParameterAttribute.ATTR_PASSWORD
              then ": <input type='password' id='".toList
              else ": <input type='number' id='".toList)
          ++ E ++ "' name='".toList ++ E ++ "' value='".toList
          ++ (if V = [] then "0".toList else V)
          ++ (if p.specialAttribute = ParameterAttribute.ATTR_PASSWORD
              then "' pattern='[0-9]+' inputmode='decimal'>".toList
              else "'>".toList) := by
  have hdisp : ∀ W, createHtmlElementFor E p W = numericHtmlElement p E W := by
    intro W
    unfold createHtmlElementFor
    rcases hp with h | h <;> rw [h]
  have hempty : ∀ W : Str, (isEmpty W = true) ↔ W = [] := by
    intro W
    cases W <;> simp [isEmpty]
  refine ⟨?_, ?_⟩
  · rw [hdisp, hdisp]
    simp [numericHtmlElement, isEmpty]
  · rw [hdisp]
    unfold numericHtmlElement
    by_cases hv : V = []
    · by_cases ha : p.specialAttribute = ParameterAttribute.ATTR_PASSWORD
      · simp [hv, ha, isEmpty]
      · simp [hv, ha, isEmpty]
    · have hne : ¬ isEmpty V = true := fun h => hv ((hempty V).mp h)
      by_cases ha : p.specialAttribute = ParameterAttribute.ATTR_PASSWORD
      · simp [hv, ha, hne]
      · simp [hv, ha, hne]

/-- C8 at a FLOAT parameter with the PASSWORD attribute and the current value
`3.5`. -/
theorem createHtmlElementFor_numeric_default_witness :
    (floatPasswordParameter.type = ParameterType.TYPE_INT
        ∨ floatPasswordParameter.type = ParameterType.TYPE_FLOAT) ∧
      createHtmlElementFor "cat_x".toList floatPasswordParameter []
        = createHtmlElementFor "cat_x".toList floatPasswordParameter "0".toList ∧
      createHtmlElementFor "cat_x".toList floatPasswordParameter "3.5".toList
        = floatPasswordParameter.name
          ++ (if floatPasswordParameter.specialAttribute = ParameterAttribute.ATTR_PASSWORD
              then ": <input type='password' id='".toList
              else ": <input type='number' id='".toList)
          ++ "cat_x".toList ++ "' name='".toList ++ "cat_x".toList ++ "' value='".toList
          ++ (if "3.5".toList = [] then "0".toList else "3.5".toList)
          ++ (if floatPasswordParameter.specialAttribute = ParameterAttribute.ATTR_PASSWORD
              then "' pattern='[0-9]+' inputmode='decimal'>".toList
              else "'>".toList) :=
  ⟨Or.inr rfl,
    createHtmlElementFor_numeric_default "cat_x".toList "3.5".toList floatPasswordParameter
      (Or.inr rfl)⟩

/-! ## The combo box -/

theorem foldl_comboBoxStep (currentValue : Str) (options : List Str) (html : Str)
    (found : Bool) :
    (options.foldl (comboBoxStep currentValue) (html, found)).1
      = html ++ loopEntries currentValue found options := by
  induction options generalizing html found with
  | nil => simp [loopEntries]
  | cons o rest ih =>
    rw [List.foldl_cons]
    cases hf : found <;> cases he : equals o currentValue <;>
      simp [comboBoxStep, hf, he, ih, loopEntries, optionEntry]

theorem loopEntries_found (currentValue : Str) (options : List Str) :
    loopEntries currentValue true options
      = (options.map (fun o => optionEntry o false)).flatten := by
  induction options with
  | nil => simp [loopEntries]
  | cons o rest ih => simp [loopEntries, ih]

theorem isFirstMatch_zero (o : Str) (rest : List Str) (value : Str) :
    isFirstMatch (o :: rest) value 0 ↔ o = value := by
  simp [isFirstMatch]

theorem isFirstMatch_succ_of_eq (rest : List Str) (value : Str) (i : Nat) :
    ¬ isFirstMatch (value :: rest) value (i + 1) := by
  intro h
  exact h.2 0 (Nat.succ_pos i) (by simp)

theorem isFirstMatch_succ_of_ne (o : Str) (rest : List Str) (value : Str) (i : Nat)
    (hne : o ≠ value) :
    isFirstMatch (o :: rest) value (i + 1) ↔ isFirstMatch rest value i := by
  unfold isFirstMatch
  constructor
  · rintro ⟨h1, h2⟩
    refine ⟨by simpa using h1, fun j hj => ?_⟩
    have := h2 (j + 1) (by omega)
    simpa using this
  · rintro ⟨h1, h2⟩
    refine ⟨by simpa using h1, fun j hj => ?_⟩
    cases j with
    | zero => simpa using hne
    | succ k =>
      have := h2 k (by omega)
      simpa using this

theorem mapIdx_ignore_index {α β : Type} (g : α → β) (l : List α) :
    l.mapIdx (fun _ a => g a) = l.map g := by
  induction l with
  | nil => simp
  | cons a rest ih => rw [List.mapIdx_cons, ih, List.map_cons]

theorem loopEntries_eq_mapIdx (currentValue : Str) (options : List Str) :
    loopEntries currentValue false options
      = (options.mapIdx
          (fun i o => optionEntry o (decide (isFirstMatch options currentValue i)))).flatten := by
  induction options with
  | nil => simp [loopEntries]
  | cons o rest ih =>
    rw [loopEntries, List.mapIdx_cons, List.flatten_cons]
    have h0 : (!false && equals o currentValue)
        = decide (isFirstMatch (o :: rest) currentValue 0) := by
      simp [equals, isFirstMatch_zero]
    rw [h0]
    congr 1
    by_cases he : o = currentValue
    · subst he
      have hfalse : ∀ i, decide (isFirstMatch (o :: rest) o (i + 1)) = false := by
        intro i
        simpa using isFirstMatch_succ_of_eq rest o i
      simp only [hfalse]
      simp [equals, loopEntries_found, mapIdx_ignore_index]
    · have hstep : ∀ i, decide (isFirstMatch (o :: rest) currentValue (i + 1))
          = decide (isFirstMatch rest currentValue i) := by
        intro i
        simp [isFirstMatch_succ_of_ne o rest currentValue i he]
      simp only [hstep]
      simp [equals, he, ih]

set_option maxRecDepth 4096 in
/-- C9: for every option list and current value `V`, `createHtmlComboBoxFor`
emits, between the opening of the `select` and the refresh button, exactly one
option entry per option, in list order, and the entry at index `i` is marked
selected exactly when `i` is the smallest index with `options[i] = V`. Hence no
entry is marked when no option equals `V`, at most one entry is marked, and
with duplicates only the first is (as for the options `a, b, a` and `V = a`);
a marked entry differs from an unmarked one. -/
theorem createHtmlComboBoxFor_selects_first (E V : Str) (p : ParameterInfo)
    (options : List Str) :
    createHtmlComboBoxFor E p V options
        = "Select ".toList ++ p.name ++ ": <select id='".toList ++ E ++ "' name='".toList ++ E
          ++ "'>".toList
          ++ (options.mapIdx
              (fun i o => optionEntry o (decide (isFirstMatch options V i)))).flatten
          ++ ("</select><button type='button' onclick='refreshOptions(\"".toList ++ E
            ++ "\")'>Refresh</button>".toList) ∧
      (V ∉ options → ∀ i, ¬ isFirstMatch options V i) ∧
      (∀ i j, isFirstMatch options V i → isFirstMatch options V j → i = j) ∧
      (∀ o, optionEntry o true ≠ optionEntry o false) ∧
      createHtmlComboBoxFor "c_p".toList (ParameterInfo.mk "p".toList
          ParameterType.TYPE_OPTIONSET ParameterAttribute.ATTR_NONE) "a".toList
          ["a".toList, "b".toList, "a".toList]
        = ("Select p: <select id='c_p' name='c_p'><option value='a' selected>a</option>"
          ++ "<option value='b'>b</option><option value='a'>a</option></select>"
          ++ "<button type='button' onclick='refreshOptions(\"c_p\")'>Refresh</button>").toList := by
  refine ⟨?_, ?_, ?_, ?_, by decide⟩
  · unfold createHtmlComboBoxFor
    simp only [foldl_comboBoxStep, loopEntries_eq_mapIdx]
  · intro hV i hi
    exact hV (List.get?_mem hi.1)
  · intro i j hi hj
    rcases Nat.lt_trichotomy i j with h | h | h
    · exact absurd hi.1 (hj.2 i h)
    · exact h
    · exact absurd hj.1 (hi.2 j h)
  · intro o h
    have hlen := congrArg List.length h
    simp [optionEntry] at hlen

/-! ## The refresh handler -/

theorem intercalate_cons_cons {α : Type} (sep a b : List α) (rest : List (List α)) :
    List.intercalate sep (a :: b :: rest) = a ++ sep ++ List.intercalate sep (b :: rest) := by
  simp [List.intercalate]

/-- Before the last index, the refresh loop has emitted every option so far
with a comma after it. -/
theorem refreshLoop_prefix (options : List Str) (json : Str) (n : Nat)
    (hn : n < options.length) :
    (List.range n).foldl (refreshStep options) json
      = json ++ ((options.take n).map (fun o => quoted o ++ ",".toList)).flatten := by
  induction n with
  | zero => simp
  | succ n ih =>
    have hlt : n < options.length := by omega
    have hcomma : n < options.length - 1 := by omega
    rw [List.range_succ, List.foldl_append, ih hlt, List.take_succ,
      List.getElem?_eq_getElem hlt]
    simp only [List.foldl_cons, List.foldl_nil, refreshStep, if_pos hcomma,
      List.getD_eq_getElem options [] hlt, Option.toList, List.map_append, List.map_cons,
      List.map_nil, List.flatten_append, List.flatten_cons, List.flatten_nil, quoted,
      List.append_assoc, List.append_nil]

theorem flatten_take_append_last (sep : Str) (l : List Str) (m : Nat) (hm : m + 1 = l.length) :
    ((l.take m).map (fun o => quoted o ++ sep)).flatten ++ quoted (l.getD m [])
      = List.intercalate sep (l.map quoted) := by
  induction l generalizing m with
  | nil => simp at hm
  | cons a rest ih =>
    cases rest with
    | nil =>
      have : m = 0 := by simpa using hm
      subst this
      simp [List.intercalate]
    | cons b r =>
      cases m with
      | zero => simp at hm
      | succ k =>
        have hk : k + 1 = (b :: r).length := by simpa using hm
        have := ih k hk
        rw [List.map_cons, List.map_cons, intercalate_cons_cons, ← List.map_cons, ← this]
        simp

/-- The refresh loop emits the quoted options separated by single commas. -/
theorem refreshLoop_eq_intercalate (options : List Str) (json : Str) :
    (List.range options.length).foldl (refreshStep options) json
      = json ++ List.intercalate ",".toList (options.map quoted) := by
  cases hlen : options.length with
  | zero =>
    have : options = [] := List.length_eq_zero.mp hlen
    subst this
    simp [List.intercalate]
  | succ m =>
    have hm : m < options.length := by omega
    have hlast : ¬ m < options.length - 1 := by omega
    rw [List.range_succ, List.foldl_append, refreshLoop_prefix options json m hm]
    simp only [List.foldl_cons, List.foldl_nil, refreshStep, if_neg hlast]
    rw [List.append_assoc]
    congr 1
    exact flatten_take_append_last ",".toList options m hlen.symm

/-- C10: for every element name `E` received as the argument `param`, the
refresh handler queries the store on the decoded pair, first for the original
value `v`, then for the option list with `forceRefresh = true`, and makes no
other store call; it responds 200 with the JSON body whose `current` is `v` and
whose `options` are the options of that list, each once, quoted, in the store's
order, separated by single commas without a trailing one. An empty list gives
`"options":[]` and a one-element list gives no comma. -/
theorem handleRefreshRequest_response {σ : Type} (pm : ParametersManager σ)
    (server : WebServer) (self : Interface σ) (E : Str)
    (hE : server.argByName "param".toList = E) :
    (handleRefreshRequest pm server self).2.calls
        = self.calls ++
          [StoreCall.getOriginalValue (getCategoryAndParamName E).1 (getCategoryAndParamName E).2,
           StoreCall.getParameterOptions (getCategoryAndParamName E).1
             (getCategoryAndParamName E).2 true] ∧
      (handleRefreshRequest pm server self).1
        = { code := 200, contentType := "application/json".toList,
            content := "\x7b\"current\":\"".toList
              ++ pm.getOriginalValue (getCategoryAndParamName E).1
                  (getCategoryAndParamName E).2 self.store
              ++ "\",\"options\":[".toList
              ++ List.intercalate ",".toList
                  ((pm.getParameterOptions (getCategoryAndParamName E).1
                    (getCategoryAndParamName E).2 true self.store).1.map quoted)
              ++ "]\x7d".toList } ∧
      ((pm.getParameterOptions (getCategoryAndParamName E).1
          (getCategoryAndParamName E).2 true self.store).1 = [] →
        (handleRefreshRequest pm server self).1.content
          = "\x7b\"current\":\"".toList
            ++ pm.getOriginalValue (getCategoryAndParamName E).1
                (getCategoryAndParamName E).2 self.store
            ++ "\",\"options\":[]\x7d".toList) ∧
      (∀ o, (pm.getParameterOptions (getCategoryAndParamName E).1
          (getCategoryAndParamName E).2 true self.store).1 = [o] →
        (handleRefreshRequest pm server self).1.content
          = "\x7b\"current\":\"".toList
            ++ pm.getOriginalValue (getCategoryAndParamName E).1
                (getCategoryAndParamName E).2 self.store
            ++ "\",\"options\":[\"".toList ++ o ++ "\"]\x7d".toList) := by
  subst hE
  have hresp : (handleRefreshRequest pm server self).1
      = { code := 200, contentType := "application/json".toList,
          content := "\x7b\"current\":\"".toList
            ++ pm.getOriginalValue (getCategoryAndParamName (server.argByName "param".toList)).1
                (getCategoryAndParamName (server.argByName "param".toList)).2 self.store
            ++ "\",\"options\":[".toList
            ++ List.intercalate ",".toList
                ((pm.getParameterOptions
                  (getCategoryAndParamName (server.argByName "param".toList)).1
                  (getCategoryAndParamName (server.argByName "param".toList)).2 true
                  self.store).1.map quoted)
            ++ "]\x7d".toList } := by
    unfold handleRefreshRequest
    simp only [Interface.getOriginalValue, Interface.getParameterOptions,
      refreshLoop_eq_intercalate]
  refine ⟨?_, hresp, ?_, ?_⟩
  · unfold handleRefreshRequest
    simp [Interface.getOriginalValue, Interface.getParameterOptions]
  · intro h
    rw [hresp, h]
    simp [List.intercalate]
  · intro o h
    rw [hresp, h]
    simp [List.intercalate, quoted]

/-- C10 at the request `param = cat_y` against a store whose original value is
`b` and whose options are `a`, `b`. -/
theorem handleRefreshRequest_response_witness :
    (paramRequest "cat_y".toList).argByName "param".toList = "cat_y".toList ∧
      (handleRefreshRequest (fixedStore "b".toList ["a".toList, "b".toList])
          (paramRequest "cat_y".toList) freshInterface).2.calls
        = [StoreCall.getOriginalValue "cat".toList "y".toList,
           StoreCall.getParameterOptions "cat".toList "y".toList true] ∧
      (handleRefreshRequest (fixedStore "b".toList ["a".toList, "b".toList])
          (paramRequest "cat_y".toList) freshInterface).1
        = { code := 200, contentType := "application/json".toList,
            content := "\x7b\"current\":\"b\",\"options\":[\"a\",\"b\"]\x7d".toList } := by
  have h := handleRefreshRequest_response (fixedStore "b".toList ["a".toList, "b".toList])
    (paramRequest "cat_y".toList) freshInterface "cat_y".toList (by decide)
  refine ⟨by decide, ?_, ?_⟩
  · rw [h.1]
    decide
  · rw [h.2.1]
    decide

/-! ## The reset handler -/

/-- C11: for every element name `E` received as the argument `param`, the reset
handler responds 200 with the body `{"value":"v"}`, where `v` is the store's
original value for the decoded pair. Its only store call is that
`getOriginalValue` (no setter call, no validation call), the store state and
the cached form are as before, and two reset requests for `E` against stores
with the same original value for the pair get the same response. -/
theorem handleResetRequest_response {σ : Type} (pm : ParametersManager σ)
    (server : WebServer) (self : Interface σ) (E : Str)
    (hE : server.argByName "param".toList = E) :
    (handleResetRequest pm server self).1
        = { code := 200, contentType := "application/json".toList,
            content := "\x7b\"value\":\"".toList
              ++ pm.getOriginalValue (getCategoryAndParamName E).1
                  (getCategoryAndParamName E).2 self.store
              ++ "\"\x7d".toList } ∧
      (handleResetRequest pm server self).2.calls
        = self.calls ++
          [StoreCall.getOriginalValue (getCategoryAndParamName E).1
            (getCategoryAndParamName E).2] ∧
      (handleResetRequest pm server self).2.store = self.store ∧
      (handleResetRequest pm server self).2.htmlForm = self.htmlForm ∧
      (∀ (τ : Type) (pm2 : ParametersManager τ) (server2 : WebServer) (self2 : Interface τ),
        server2.argByName "param".toList = E →
        pm2.getOriginalValue (getCategoryAndParamName E).1 (getCategoryAndParamName E).2
            self2.store
          = pm.getOriginalValue (getCategoryAndParamName E).1 (getCategoryAndParamName E).2
            self.store →
        (handleResetRequest pm2 server2 self2).1 = (handleResetRequest pm server self).1) := by
  subst hE
  refine ⟨rfl, rfl, rfl, rfl, ?_⟩
  intro τ pm2 server2 self2 h2 hv
  simp only [handleResetRequest, Interface.getOriginalValue, h2, hv]

/-- C11 at the request `param = cat_x` against a store whose original value is
`7`. -/
theorem handleResetRequest_response_witness :
    (paramRequest "cat_x".toList).argByName "param".toList = "cat_x".toList ∧
      (handleResetRequest (fixedStore "7".toList []) (paramRequest "cat_x".toList)
          freshInterface).1
        = { code := 200, contentType := "application/json".toList,
            content := "\x7b\"value\":\"7\"\x7d".toList } ∧
      (handleResetRequest (fixedStore "7".toList []) (paramRequest "cat_x".toList)
          freshInterface).2.calls
        = [StoreCall.getOriginalValue "cat".toList "x".toList] := by
  have h := handleResetRequest_response (fixedStore "7".toList []) (paramRequest "cat_x".toList)
    freshInterface "cat_x".toList (by decide)
  refine ⟨by decide, ?_, ?_⟩
  · rw [h.1]
    decide
  · rw [h.2.1]
    decide

/-! ## The separator in a parameter name -/

theorem lastIndexOf?_append_some (ch : Char) (A P : List Char) (i : Nat)
    (h : lastIndexOf? ch P = some i) :
    lastIndexOf? ch (A ++ P) = some (A.length + i) := by
  induction A with
  | nil => simpa using h
  | cons a rest ih =>
    rw [List.cons_append, lastIndexOf?, ih]
    simp only [List.length_cons, Option.some.injEq]
    omega

/-- C16: for every category `C` and every parameter name `P` with at least one
`'_'`, decoding the encoded element name does not give `(C, P)` back: the
decoded parameter name is the part of `P` after its last `'_'`, a proper suffix
of `P` without `'_'`, and the decoded category is `C`, `'_'` and the part of
`P` before that `'_'`. -/
theorem getCategoryAndParamName_getElementName_lossy (C P : Str) (hP : '_' ∈ P)
    (hlen : (getElementName C P).length ≤ intMax) :
    getCategoryAndParamName (getElementName C P) ≠ (C, P) ∧
      ∃ i, lastIndexOf? '_' P = some i ∧ i < P.length ∧
        (getCategoryAndParamName (getElementName C P)).2 = P.drop (i + 1) ∧
        (getCategoryAndParamName (getElementName C P)).1 = C ++ "_".toList ++ P.take i ∧
        (getCategoryAndParamName (getElementName C P)).2.length < P.length := by
  cases h : lastIndexOf? ELEMENT_NAME_SEPARATOR P with
  | none => exact absurd hP ((lastIndexOf?_eq_none_iff _ P).mp h)
  | some i =>
    obtain ⟨hi, -, -⟩ := lastIndexOf?_some_split _ P i h
    have hE : lastIndexOf? ELEMENT_NAME_SEPARATOR (getElementName C P)
        = some ((C ++ [ELEMENT_NAME_SEPARATOR]).length + i) :=
      lastIndexOf?_append_some _ (C ++ [ELEMENT_NAME_SEPARATOR]) P i h
    have hdec := getCategoryAndParamName_of_lastIndexOf? _ _ hE hlen
    have hsnd : (getCategoryAndParamName (getElementName C P)).2 = P.drop (i + 1) := by
      rw [hdec]
      simp only [getElementName]
      rw [Nat.add_assoc, List.drop_append]
    have hfst : (getCategoryAndParamName (getElementName C P)).1
        = C ++ "_".toList ++ P.take i := by
      rw [hdec]
      simp only [getElementName]
      rw [List.take_append]
      rfl
    have hshort : (getCategoryAndParamName (getElementName C P)).2.length < P.length := by
      rw [hsnd, List.length_drop]
      omega
    refine ⟨?_, i, h, hi, hsnd, hfst, hshort⟩
    intro heq
    rw [heq] at hshort
    exact Nat.lt_irrefl _ hshort

/-- C16 at the category `cat` and the parameter name `a_b`, which decode to
`cat_a` and `b`. -/
theorem getCategoryAndParamName_getElementName_lossy_witness :
    '_' ∈ "a_b".toList ∧ (getElementName "cat".toList "a_b".toList).length ≤ intMax ∧
      getCategoryAndParamName (getElementName "cat".toList "a_b".toList)
        ≠ ("cat".toList, "a_b".toList) ∧
      getCategoryAndParamName (getElementName "cat".toList "a_b".toList)
        = ("cat_a".toList, "b".toList) :=
  ⟨by decide, by decide,
    (getCategoryAndParamName_getElementName_lossy "cat".toList "a_b".toList
      (by decide) (by decide)).1,
    by decide⟩

/-! ## Save without rollback, dispatch and masking -/

/-- C17: no rollback on validation failure. The store calls that the save
handler adds are the setter calls for the submitted pairs followed by the
validation call, the same for any two stores (so whether validation succeeds
or fails). After a failure the status is 400, the validation call is the last
call, and the store is the one validation left after every setter was applied;
with a validation that does not change the store, it is the store with every
submitted value applied. -/
theorem handleSaveRequest_no_rollback {σ τ : Type} (pm : ParametersManager σ)
    (pm2 : ParametersManager τ) (server : WebServer) (self : Interface σ)
    (self2 : Interface τ) :
    (handleSaveRequest pm server self).2.calls.drop self.calls.length
        = server.arguments.map setterCall ++ [StoreCall.validateInput] ∧
      (handleSaveRequest pm2 server self2).2.calls.drop self2.calls.length
        = (handleSaveRequest pm server self).2.calls.drop self.calls.length ∧
      (∀ errors,
        (pm.validateInput (applySubmitted pm server.arguments self.store)).1
          = ChainedValidationResults.failure errors →
        (handleSaveRequest pm server self).1.code = 400 ∧
          (handleSaveRequest pm server self).2.calls.getLast? = some StoreCall.validateInput ∧
          (handleSaveRequest pm server self).2.store
            = (pm.validateInput (applySubmitted pm server.arguments self.store)).2) ∧
      ((∀ s, (pm.validateInput s).2 = s) →
        (handleSaveRequest pm server self).2.store
          = applySubmitted pm server.arguments self.store) := by
  have hcalls : ∀ (ρ : Type) (q : ParametersManager ρ) (me : Interface ρ),
      (handleSaveRequest q server me).2.calls
        = me.calls ++ (server.arguments.map setterCall ++ [StoreCall.validateInput]) := by
    intro ρ q me
    unfold handleSaveRequest
    simp only [saveLoop_state, Interface.validateInput, List.append_assoc]
  have hstore : (handleSaveRequest pm server self).2.store
      = (pm.validateInput (applySubmitted pm server.arguments self.store)).2 := by
    unfold handleSaveRequest
    simp only [saveLoop_state, Interface.validateInput]
  refine ⟨?_, ?_, ?_, ?_⟩
  · rw [hcalls, List.drop_left]
  · rw [hcalls, hcalls, List.drop_left, List.drop_left]
  · intro errors h
    refine ⟨?_, ?_, hstore⟩
    · rw [handleSaveRequest_response, h]
    · rw [hcalls, ← List.append_assoc, List.getLast?_append]
      rfl
  · intro hpure
    rw [hstore, hpure]

/-- C18: the dispatch of `createHtmlElementFor` is total with a textual
default: the numeric element for INT and FLOAT, the toggle element for BOOL,
the textual element for every other type, OPTIONSET included; and for a BOOL
parameter the output does not depend on the special attribute. -/
theorem createHtmlElementFor_dispatch (E V name : Str) (special special2 : ParameterAttribute) :
    (∀ p : ParameterInfo,
        p.type = ParameterType.TYPE_INT ∨ p.type = ParameterType.TYPE_FLOAT →
        createHtmlElementFor E p V = numericHtmlElement p E V) ∧
      (∀ p : ParameterInfo, p.type = ParameterType.TYPE_BOOL →
        createHtmlElementFor E p V = toggleHtmlElement p E V) ∧
      (∀ p : ParameterInfo, p.type ≠ ParameterType.TYPE_INT →
        p.type ≠ ParameterType.TYPE_FLOAT → p.type ≠ ParameterType.TYPE_BOOL →
        createHtmlElementFor E p V = textualHtmlElement p E V) ∧
      createHtmlElementFor E (ParameterInfo.mk name ParameterType.TYPE_OPTIONSET special) V
        = textualHtmlElement (ParameterInfo.mk name ParameterType.TYPE_OPTIONSET special) E V ∧
      createHtmlElementFor E (ParameterInfo.mk name ParameterType.TYPE_BOOL special) V
        = createHtmlElementFor E (ParameterInfo.mk name ParameterType.TYPE_BOOL special2) V := by
  refine ⟨?_, ?_, ?_, rfl, rfl⟩
  · intro p hp
    unfold createHtmlElementFor
    rcases hp with h | h <;> rw [h]
  · intro p hp
    unfold createHtmlElementFor
    rw [hp]
  · intro p h1 h2 h3
    unfold createHtmlElementFor
    cases hty : p.type with
    | TYPE_INT => exact absurd hty h1
    | TYPE_FLOAT => exact absurd hty h2
    | TYPE_BOOL => exact absurd hty h3
    | TYPE_TEXT => rfl
    | TYPE_OPTIONSET => rfl

/-- C15: for every INT, FLOAT or TEXT parameter the input control has the type
`password` exactly when the special attribute is PASSWORD, and otherwise
`number` for INT and FLOAT and `text` for TEXT; a PASSWORD numeric control also
carries the pattern `[0-9]+` and still carries the numeric value text, `0` for
an empty current value; a TEXT control carries the current value as it is. -/
theorem createHtmlElementFor_masking (name E V : Str) (type : ParameterType)
    (special : ParameterAttribute)
    (htype : type = ParameterType.TYPE_INT ∨ type = ParameterType.TYPE_FLOAT
      ∨ type = ParameterType.TYPE_TEXT) :
    createHtmlElementFor E (ParameterInfo.mk name type special) V
        = name ++ ": <input type='".toList ++ inputTypeOf type special ++ "' id='".toList ++ E
          ++ "' name='".toList ++ E ++ "' value='".toList
          ++ (if type = ParameterType.TYPE_TEXT then V else if V = [] then "0".toList else V)
          ++ (if special = ParameterAttribute.ATTR_PASSWORD ∧ type ≠ ParameterType.TYPE_TEXT
              then "' pattern='[0-9]+' inputmode='decimal'>".toList
              else "'>".toList) ∧
      (inputTypeOf type special = "password".toList
        ↔ special = ParameterAttribute.ATTR_PASSWORD) ∧
      (special ≠ ParameterAttribute.ATTR_PASSWORD →
        inputTypeOf type special
          = if type = ParameterType.TYPE_TEXT then "text".toList else "number".toList) := by
  have hempty : ∀ W : Str, isEmpty W = decide (W = []) := by
    intro W
    cases W <;> simp [isEmpty]
  refine ⟨?_, ?_, ?_⟩
  · rcases htype with h | h | h <;> subst h <;> cases special <;> by_cases hv : V = [] <;>
      simp [createHtmlElementFor, numericHtmlElement, textualHtmlElement, inputTypeOf,
        hempty, hv]
  · rcases htype with h | h | h <;> subst h <;> cases special <;> simp [inputTypeOf]
  · intro hs
    simp [inputTypeOf, hs]

/-- C15 at an INT parameter with the PASSWORD attribute and an empty current
value. -/
theorem createHtmlElementFor_masking_witness :
    (ParameterType.TYPE_INT = ParameterType.TYPE_INT
        ∨ ParameterType.TYPE_INT = ParameterType.TYPE_FLOAT
        ∨ ParameterType.TYPE_INT = ParameterType.TYPE_TEXT) ∧
      createHtmlElementFor "cat_pin".toList
          (ParameterInfo.mk "pin".toList ParameterType.TYPE_INT ParameterAttribute.ATTR_PASSWORD)
          []
        = ("pin: <input type='password' id='cat_pin' name='cat_pin' value='0' "
          ++ "pattern='[0-9]+' inputmode='decimal'>").toList := by
  have h := createHtmlElementFor_masking "pin".toList "cat_pin".toList []
    ParameterType.TYPE_INT ParameterAttribute.ATTR_PASSWORD (Or.inl rfl)
  refine ⟨Or.inl rfl, ?_⟩
  rw [h.1]
  decide

/-! ## Page assembly -/

/-- The form after one iteration of the loop of `init`: the markup of the
parameter is appended, with the options the store returns. -/
theorem initStep_htmlForm {σ : Type} (pm : ParametersManager σ) (title : Str)
    (currentValues : Str → Option Str) (self : Interface σ) (param : ParameterInfo) :
    (initStep pm title currentValues self param).htmlForm
      = self.htmlForm ++ parameterMarkup title currentValues param
          (pm.getParameterOptions title param.name false self.store).1 := by
  unfold initStep parameterMarkup controlFor valueFor
  by_cases h : param.type = ParameterType.TYPE_OPTIONSET
  · simp only [h, if_true, Interface.getParameterOptions, defaultForceRefresh,
      List.append_assoc]
    rfl
  · simp only [h, if_false, List.append_assoc]
    rfl

theorem initStep_store {σ : Type} (pm : ParametersManager σ) (title : Str)
    (currentValues : Str → Option Str) (self : Interface σ) (param : ParameterInfo) :
    (initStep pm title currentValues self param).store
      = if param.type = ParameterType.TYPE_OPTIONSET
        then (pm.getParameterOptions title param.name false self.store).2
        else self.store := by
  unfold initStep
  by_cases h : param.type = ParameterType.TYPE_OPTIONSET
  · simp only [h, if_true, Interface.getParameterOptions, defaultForceRefresh]
  · simp only [h, if_false]

theorem initStep_calls {σ : Type} (pm : ParametersManager σ) (title : Str)
    (currentValues : Str → Option Str) (self : Interface σ) (param : ParameterInfo) :
    (initStep pm title currentValues self param).calls
      = self.calls ++
        (if param.type = ParameterType.TYPE_OPTIONSET
          then [StoreCall.getParameterOptions title param.name false] else []) := by
  unfold initStep
  by_cases h : param.type = ParameterType.TYPE_OPTIONSET
  · simp only [h, if_true, Interface.getParameterOptions, defaultForceRefresh]
  · simp only [h, if_false, List.append_nil]

/-- The markup of a parameter does not depend on the option list unless the
type is OPTIONSET. -/
theorem parameterMarkup_options_irrelevant (title : Str) (currentValues : Str → Option Str)
    (param : ParameterInfo) (options options2 : List Str)
    (h : param.type ≠ ParameterType.TYPE_OPTIONSET) :
    parameterMarkup title currentValues param options
      = parameterMarkup title currentValues param options2 := by
  simp only [parameterMarkup, controlFor, h, if_false]

theorem foldl_initStep_htmlForm {σ : Type} (pm : ParametersManager σ) (title : Str)
    (currentValues : Str → Option Str) (params : List ParameterInfo) (self : Interface σ) :
    (params.foldl (initStep pm title currentValues) self).htmlForm
      = self.htmlForm ++ pageBody pm title currentValues self.store params := by
  induction params generalizing self with
  | nil => simp [pageBody]
  | cons param rest ih =>
    rw [List.foldl_cons, ih, initStep_htmlForm, initStep_store, pageBody, List.append_assoc]
    by_cases h : param.type = ParameterType.TYPE_OPTIONSET
    · simp only [h, if_true]
    · simp only [h, if_false]
      rw [parameterMarkup_options_irrelevant title currentValues param _ [] h]

theorem foldl_initStep_calls {σ : Type} (pm : ParametersManager σ) (title : Str)
    (currentValues : Str → Option Str) (params : List ParameterInfo) (self : Interface σ) :
    (params.foldl (initStep pm title currentValues) self).calls
      = self.calls ++
        (params.filter (fun p => decide (p.type = ParameterType.TYPE_OPTIONSET))).map
          (fun p => StoreCall.getParameterOptions title p.name false) := by
  induction params generalizing self with
  | nil => simp
  | cons param rest ih =>
    rw [List.foldl_cons, ih, initStep_calls, List.append_assoc]
    by_cases h : param.type = ParameterType.TYPE_OPTIONSET
    · simp [h]
    · simp [h]

theorem pageBody_of_pure {σ : Type} (pm : ParametersManager σ) (title : Str)
    (currentValues : Str → Option Str) (store : σ) (params : List ParameterInfo)
    (hpure : ∀ c p s, (pm.getParameterOptions c p false s).2 = s) :
    pageBody pm title currentValues store params
      = (params.map (fun p => parameterMarkup title currentValues p
          (pm.getParameterOptions title p.name false store).1)).flatten := by
  induction params with
  | nil => simp [pageBody]
  | cons param rest ih =>
    rw [pageBody, List.map_cons, List.flatten_cons]
    by_cases h : param.type = ParameterType.TYPE_OPTIONSET
    · simp only [h, if_true, hpure, ih]
    · simp only [h, if_false, ih]
      rw [parameterMarkup_options_irrelevant title currentValues param [] _ h]

/-- The control of a parameter is its lead, its display name, and more. -/
theorem controlFor_label (title : Str) (currentValues : Str → Option Str)
    (param : ParameterInfo) (options : List Str) :
    ∃ rest : Str, controlFor title currentValues param options
      = labelLead (getElementName title param.name) param.type ++ param.name ++ rest := by
  obtain ⟨name, type, special⟩ := param
  cases type <;> cases special <;>
    simp only [controlFor, createHtmlElementFor, numericHtmlElement, toggleHtmlElement,
      textualHtmlElement, createHtmlComboBoxFor, foldl_comboBoxStep, labelLead,
      reduceCtorEq, ne_eq, not_true_eq_false, not_false_eq_true, if_true, if_false,
      List.append_assoc, List.nil_append] <;>
    exact ⟨_, rfl⟩

set_option maxRecDepth 8192 in
/-- C12, refuted as stated: the markup that `init` appends for the BOOL
parameter `flag` begins with the hidden input, and the markup for the OPTIONSET
parameter `mode` begins with the word `Select`; neither begins with the display
name. -/
theorem initStep_markup_not_label_first :
    (initStep acceptingStore "cat".toList (fun _ => none) freshInterface flagParameter).htmlForm
        = ("<input type='hidden' name='cat_flag' value='false'>"
          ++ "flag: <input type='checkbox' id='cat_flag' name='cat_flag' value='true' >"
          ++ "<button type='button' onclick='resetValue(\"cat_flag\")'>Reset</button><br>").toList ∧
      List.isPrefixOf flagParameter.name
        (initStep acceptingStore "cat".toList (fun _ => none) freshInterface
          flagParameter).htmlForm = false ∧
      (initStep acceptingStore "cat".toList (fun _ => none) freshInterface modeParameter).htmlForm
        = ("Select mode: <select id='cat_mode' name='cat_mode'></select>"
          ++ "<button type='button' onclick='refreshOptions(\"cat_mode\")'>Refresh</button>"
          ++ "<button type='button' onclick='resetValue(\"cat_mode\")'>Reset</button><br>").toList ∧
      List.isPrefixOf modeParameter.name
        (initStep acceptingStore "cat".toList (fun _ => none) freshInterface
          modeParameter).htmlForm = false := by
  decide

/-- C12, amended: for every parameter of every type, the markup that `init`
appends for it ends with the reset button whose argument is the element name
`getElementName title name`, and holds the display name as label: at the very
beginning for INT, FLOAT and TEXT, after the hidden input for BOOL, and after
the word `Select` for OPTIONSET. -/
theorem initStep_markup_label_and_reset {σ : Type} (pm : ParametersManager σ) (title : Str)
    (currentValues : Str → Option Str) (self : Interface σ) (param : ParameterInfo) :
    (∃ rest : Str,
        (initStep pm title currentValues self param).htmlForm
          = self.htmlForm ++
            (labelLead (getElementName title param.name) param.type ++ param.name ++ rest
              ++ ("<button type='button' onclick='resetValue(\"".toList
                ++ getElementName title param.name ++ "\")'>Reset</button><br>".toList))) ∧
      (param.type = ParameterType.TYPE_INT ∨ param.type = ParameterType.TYPE_FLOAT
          ∨ param.type = ParameterType.TYPE_TEXT →
        labelLead (getElementName title param.name) param.type = []) ∧
      (param.type = ParameterType.TYPE_BOOL →
        labelLead (getElementName title param.name) param.type
          = "<input type='hidden' name='".toList ++ getElementName title param.name
            ++ "' value='false'>".toList) ∧
      (param.type = ParameterType.TYPE_OPTIONSET →
        labelLead (getElementName title param.name) param.type = "Select ".toList) := by
  refine ⟨?_, ?_, ?_, ?_⟩
  · obtain ⟨rest, hrest⟩ := controlFor_label title currentValues param
      (pm.getParameterOptions title param.name false self.store).1
    refine ⟨rest, ?_⟩
    rw [initStep_htmlForm, parameterMarkup, hrest]
    rfl
  · intro h
    rcases h with h | h | h <;> rw [h] <;> rfl
  · intro h
    rw [h]
    rfl
  · intro h
    rw [h]
    rfl

set_option maxRecDepth 8192 in
/-- C13: page assembly. For every ConfigInfo and CurrentValues map, the form
that `init` builds is `createHtmlTitle title` followed, for each parameter in
ConfigInfo order, by its control and then its reset button. The control is
`createHtmlComboBoxFor` on the option list that the store returns without a
forced refresh when the type is OPTIONSET and `createHtmlElementFor` otherwise,
on the element name `getElementName title name` and the value
`CurrentValues[name]`, or the empty string when the name is absent. The store
is asked once per OPTIONSET parameter, in order, and the former content of the
form is discarded. -/
theorem init_htmlForm {σ : Type} (pm : ParametersManager σ) (configInfo : ConfigInfo)
    (currentValues : Str → Option Str) (self : Interface σ) :
    (init pm configInfo currentValues self).htmlForm
        = createHtmlTitle configInfo.title
          ++ pageBody pm configInfo.title currentValues self.store configInfo.parameters ∧
      ((∀ c p s, (pm.getParameterOptions c p false s).2 = s) →
        (init pm configInfo currentValues self).htmlForm
          = createHtmlTitle configInfo.title
            ++ (configInfo.parameters.map (fun param =>
                (if param.type = ParameterType.TYPE_OPTIONSET then
                  createHtmlComboBoxFor (getElementName configInfo.title param.name) param
                    (match currentValues param.name with
                      | none => []
                      | some v => v)
                    (pm.getParameterOptions configInfo.title param.name false self.store).1
                else
                  createHtmlElementFor (getElementName configInfo.title param.name) param
                    (match currentValues param.name with
                      | none => []
                      | some v => v))
                ++ resetButton (getElementName configInfo.title param.name))).flatten) ∧
      (init pm configInfo currentValues self).calls
        = self.calls ++
          (configInfo.parameters.filter
            (fun p => decide (p.type = ParameterType.TYPE_OPTIONSET))).map
            (fun p => StoreCall.getParameterOptions configInfo.title p.name false) ∧
      (init (fixedStore [] ["a".toList, "b".toList]) sampleConfig sampleValues
          freshInterface).htmlForm
        = ("<h2>cat</h2>x: <input type='number' id='cat_x' name='cat_x' value='5'>"
          ++ "<button type='button' onclick='resetValue(\"cat_x\")'>Reset</button><br>"
          ++ "Select mode: <select id='cat_mode' name='cat_mode'>"
          ++ "<option value='a'>a</option><option value='b'>b</option></select>"
          ++ "<button type='button' onclick='refreshOptions(\"cat_mode\")'>Refresh</button>"
          ++ "<button type='button' onclick='resetValue(\"cat_mode\")'>Reset</button><br>").toList := by
  have hform : (init pm configInfo currentValues self).htmlForm
      = createHtmlTitle configInfo.title
        ++ pageBody pm configInfo.title currentValues self.store configInfo.parameters := by
    unfold init
    rw [foldl_initStep_htmlForm]
  refine ⟨hform, ?_, ?_, by decide⟩
  · intro hpure
    rw [hform, pageBody_of_pure pm configInfo.title currentValues self.store
      configInfo.parameters hpure]
    rfl
  · unfold init
    rw [foldl_initStep_calls]

/-! ## The cached template -/

theorem handleClient_htmlForm {σ : Type} (pm : ParametersManager σ) (route : Route)
    (server : WebServer) (self : Interface σ) :
    (handleClient pm route server self).2.htmlForm = self.htmlForm := by
  cases route with
  | root => rfl
  | save =>
    unfold handleClient handleSaveRequest
    simp only [saveLoop_state, Interface.validateInput]
  | resetValue => rfl
  | refresh => rfl

theorem handleClients_htmlForm {σ : Type} (pm : ParametersManager σ)
    (requests : List (Route × WebServer)) (self : Interface σ) :
    (handleClients pm requests self).htmlForm = self.htmlForm := by
  induction requests generalizing self with
  | nil => rfl
  | cons request rest ih => rw [handleClients, ih, handleClient_htmlForm]

/-- C14: cached template. Each of the four request operations (show, save,
reset, refresh) leaves `htmlForm` as it was; `showWebPage` makes no store call
and changes nothing, and its response is the same for any two interfaces with
the same `htmlForm`; hence the Show response after any sequence of requests
that follows `init` is the Show response right after `init`. -/
theorem showWebPage_cached {σ : Type} (pm : ParametersManager σ) (configInfo : ConfigInfo)
    (currentValues : Str → Option Str) (self : Interface σ)
    (requests : List (Route × WebServer)) :
    (∀ (route : Route) (server : WebServer) (me : Interface σ),
        (handleClient pm route server me).2.htmlForm = me.htmlForm) ∧
      (∀ me : Interface σ, (showWebPage me).2 = me) ∧
      (∀ (τ : Type) (me : Interface σ) (other : Interface τ),
        me.htmlForm = other.htmlForm → (showWebPage me).1 = (showWebPage other).1) ∧
      (showWebPage (handleClients pm requests (init pm configInfo currentValues self))).1
        = (showWebPage (init pm configInfo currentValues self)).1 := by
  refine ⟨handleClient_htmlForm pm, fun _ => rfl, ?_, ?_⟩
  · intro τ me other h
    simp only [showWebPage, h]
  · simp only [showWebPage, handleClients_htmlForm]

end WebServerInputInterface
